import Mathlib

set_option maxRecDepth 8000

/-!
Verification of the guarded metadata-cache / query-safety layer of
`src/server.py` (db-xplorer).  Python strings are modelled as `List Char`
(ASCII behaviour of `str.lower`, `str.strip`, `str.rstrip` and the two
regular expressions used by the guard); database state and the store are
modelled as explicit environments, and fallible store calls as `Except`.
-/

/-- The whitespace characters stripped by Python `str.strip()` (ASCII). -/
def isPySpace (c : Char) : Bool :=
  c == ' ' || c == '\t' || c == '\n' || c == '\r' || c == '\x0b' || c == '\x0c'

/-- Python `str.lower()` (ASCII model, one character). -/
def pylower (s : List Char) : List Char := s.map Char.toLower

/-- Remove trailing whitespace: the right half of Python `str.strip()`. -/
def rstripWS (s : List Char) : List Char := ((s.reverse).dropWhile isPySpace).reverse

/-- Python `str.strip()`: remove leading and trailing whitespace. -/
def pystrip (s : List Char) : List Char := rstripWS (s.dropWhile isPySpace)

/-- Python `str.rstrip(";")`: drop trailing semicolons. -/
def rstripSemi (s : List Char) : List Char :=
  ((s.reverse).dropWhile (fun c => c == ';')).reverse

/-- `\w` of the Python regex (ASCII model): letter, digit or underscore. -/
def isWordChar (c : Char) : Bool := c.isAlphanum || c == '_'

/-- With backtracking, `re.search(r",\s*\w+\s*", s)` succeeds at a given
comma iff the first non-whitespace character after it exists and is a word
character; `wordAfterSpaces` is that condition on the text after the comma. -/
def wordAfterSpaces : List Char → Bool
  | [] => false
  | c :: rest =>
    if isWordChar c then true else if isPySpace c then wordAfterSpaces rest else false

/-- `re.search(r",\s*\w+\s*", s) ≠ None`: the second entry of
`BLOCK_PATTERNS` (src/server.py lines 865-868) matches somewhere in `s`. -/
def hasCommaWord : List Char → Bool
  | [] => false
  | c :: rest => (c == ',' && wordAfterSpaces rest) || hasCommaWord rest

/-- The keyword denylist `FORBIDDEN` of src/server.py line 863, in source
order (the guard reports the first member that occurs in the query). -/
def FORBIDDEN : List (List Char) :=
  ["update".data, "delete".data, "insert".data, "alter".data, "drop".data,
   "truncate".data, "create".data]

/-- What `run_query_safe` does with its input: reject with an error
message, or execute a SQL text against the store. -/
inductive Outcome where
  | reject (msg : List Char)
  | execute (sql : List Char)
deriving DecidableEq

/-- `run_query_safe` (src/server.py lines 871-891) up to the point where
the surviving text is handed to the store: `cleaned = sql.lower().strip()`;
reject when `cleaned` does not start with `select`; reject on the first
`FORBIDDEN` keyword occurring as a substring; reject when a `BLOCK_PATTERNS`
regex matches (`cross join`, or a comma followed by optional whitespace and
a word character); otherwise append ` LIMIT 200;` to the original text
(after `sql.rstrip(";")`) unless `limit` already occurs in `cleaned`. -/
def cleanedOf (sql : List Char) : List Char := pystrip (pylower sql)

def run_query_safe (sql : List Char) : Outcome :=
  if ¬ ("select".data <+: cleanedOf sql) then
    Outcome.reject "Only SELECT queries allowed".data
  else
    match FORBIDDEN.find? (fun bad => decide (bad <:+: cleanedOf sql)) with
    | some bad =>
      Outcome.reject ("Operation \x27".data ++ bad ++ "\x27 is not allowed".data)
    | none =>
      if ("cross join".data <:+: cleanedOf sql) ∨ hasCommaWord (cleanedOf sql) then
        Outcome.reject "Query blocked for safety".data
      else if ¬ ("limit".data <:+: cleanedOf sql) then
        Outcome.execute (rstripSemi sql ++ " LIMIT 200;".data)
      else
        Outcome.execute sql

example : run_query_safe "select * from t".data
    = Outcome.execute "select * from t LIMIT 200;".data := by decide

example : run_query_safe "select * from t limit 5".data
    = Outcome.execute "select * from t limit 5".data := by decide

example : run_query_safe "DROP TABLE x".data
    = Outcome.reject "Only SELECT queries allowed".data := by decide

example : run_query_safe "SELECT * FROM a, b".data
    = Outcome.reject "Query blocked for safety".data := by decide

example : run_query_safe "select a, b from t".data
    = Outcome.reject "Query blocked for safety".data := by decide

example : run_query_safe "select x from t where y = delete_me".data
    = Outcome.reject ("Operation \x27".data ++ "delete".data ++ "\x27 is not allowed".data) := by
  decide

/-! ### List toolkit: substrings under stripping and appending -/

theorem revInfixIff {α : Type} {l₁ l₂ : List α} :
    l₁.reverse <:+: l₂.reverse ↔ l₁ <:+: l₂ := List.reverse_infix

theorem revPrefixIff {α : Type} {l₁ l₂ : List α} :
    l₁.reverse <+: l₂.reverse ↔ l₁ <:+ l₂ := List.reverse_prefix

/-- A nonempty pattern made of characters the predicate rejects survives
`dropWhile` on the text: its occurrences lie beyond the dropped prefix. -/
theorem infix_dropWhile_of_not {α : Type} {p : α → Bool} {n s : List α}
    (hn : n ≠ []) (hw : ∀ c ∈ n, p c = false) (h : n <:+: s) :
    n <:+: s.dropWhile p := by
  induction s with
  | nil => exact absurd (List.eq_nil_of_infix_nil h) hn
  | cons a t ih =>
    by_cases hpa : p a
    · rw [List.dropWhile_cons, if_pos hpa]
      rcases List.infix_cons_iff.mp h with hpre | hinf
      · obtain ⟨c, n', rfl⟩ : ∃ c n', n = c :: n' := by
          cases n with
          | nil => exact absurd rfl hn
          | cons c n' => exact ⟨c, n', rfl⟩
        rw [List.cons_prefix_cons] at hpre
        have hcfalse : p c = false := hw c (List.mem_cons_self c n')
        rw [hpre.1] at hcfalse
        rw [hpa] at hcfalse
        exact absurd hcfalse (by simp)
      · exact ih hinf
    · rw [List.dropWhile_cons, if_neg hpa]
      exact h

/-- A prefix of an append is a prefix of the first part, or extends it by a
prefix of the second part. -/
theorem prefix_append_cases {α : Type} {n A B : List α} (h : n <+: A ++ B) :
    n <+: A ∨ ∃ c, n = A ++ c ∧ c <+: B := by
  obtain ⟨t, ht⟩ := h
  rcases List.append_eq_append_iff.mp ht with ⟨a', ha1, _⟩ | ⟨c', hc1, hc2⟩
  · exact Or.inl ⟨a', ha1.symm⟩
  · exact Or.inr ⟨c', hc1, ⟨t, hc2.symm⟩⟩

/-- An infix of `A ++ B` lies in `A`, lies in `B`, or ends with a nonempty
prefix of `B`. -/
theorem infix_append_cases {α : Type} {n : List α} :
    ∀ {A : List α} {B : List α}, n <:+: A ++ B →
      n <:+: A ∨ n <:+: B ∨ ∃ n₁ n₂, n = n₁ ++ n₂ ∧ n₂ ≠ [] ∧ n₂ <+: B := by
  intro A
  induction A with
  | nil => exact fun h => Or.inr (Or.inl h)
  | cons a A ih =>
    intro B h
    rcases List.infix_cons_iff.mp h with hpre | hinf
    · cases n with
      | nil => exact Or.inl List.nil_infix
      | cons c n' =>
        rw [List.cons_prefix_cons] at hpre
        obtain ⟨rfl, hn'⟩ := hpre
        rcases prefix_append_cases hn' with h1 | ⟨d, rfl, hd⟩
        · exact Or.inl (List.IsPrefix.isInfix (List.cons_prefix_cons.mpr ⟨rfl, h1⟩))
        · by_cases hdnil : d = []
          · subst hdnil
            exact Or.inl (List.IsPrefix.isInfix
              (List.cons_prefix_cons.mpr ⟨rfl, by simp⟩))
          · exact Or.inr (Or.inr ⟨c :: A, d, by simp, hdnil, hd⟩)
    · rcases ih hinf with h1 | h2 | h3
      · exact Or.inl (h1.trans (List.infix_cons List.infix_rfl))
      · exact Or.inr (Or.inl h2)
      · exact Or.inr (Or.inr h3)

/-- An infix of the second part of an append is an infix of the append. -/
theorem infix_append_of_right {α : Type} {n B : List α} (A : List α)
    (h : n <:+: B) : n <:+: A ++ B := by
  obtain ⟨s, t, hst⟩ := h
  exact ⟨A ++ s, t, by rw [← hst]; simp⟩

/-- `rstripWS` shortens from the right only. -/
theorem rstripWS_isPrefix (m : List Char) : rstripWS m <+: m := by
  have h : m.reverse.dropWhile isPySpace <:+ m.reverse := List.dropWhile_suffix _
  have h2 := revPrefixIff.mpr h
  simpa [rstripWS] using h2

/-- `pystrip` returns a contiguous piece of its input. -/
theorem pystrip_isInfix (s : List Char) : pystrip s <:+: s :=
  (List.IsPrefix.isInfix (rstripWS_isPrefix _)).trans
    (List.IsSuffix.isInfix (List.dropWhile_suffix _))

/-- A nonempty, whitespace-free pattern that occurs in a text also occurs in
the stripped text: `strip` only removes whitespace at the ends. -/
theorem pystrip_preserves_occurrence {n s : List Char} (hn : n ≠ [])
    (hw : ∀ c ∈ n, isPySpace c = false) (h : n <:+: s) : n <:+: pystrip s := by
  have h1 : n <:+: s.dropWhile isPySpace := infix_dropWhile_of_not hn hw h
  have h2 : n.reverse <:+: (s.dropWhile isPySpace).reverse := revInfixIff.mpr h1
  have h3 : n.reverse <:+: ((s.dropWhile isPySpace).reverse).dropWhile isPySpace :=
    infix_dropWhile_of_not (by simpa using hn)
      (fun c hc => hw c (List.mem_reverse.mp hc)) h2
  rw [pystrip, rstripWS, ← revInfixIff]
  simpa using h3

/-- If a text ends with a non-whitespace character, `rstripWS` keeps it whole. -/
theorem rstripWS_eq_of_getLast {m : List Char} {c : Char}
    (h : m.getLast? = some c) (hc : isPySpace c = false) : rstripWS m = m := by
  obtain ⟨ys, rfl⟩ := List.getLast?_eq_some_iff.mp h
  rw [rstripWS, List.reverse_append]
  simp only [List.reverse_cons, List.reverse_nil, List.nil_append, List.cons_append,
    List.dropWhile_cons]
  rw [hc]
  simp

/-- Splitting off the trailing semicolons: `s = s.rstrip(";") ++ semis`. -/
theorem rstripSemi_split (sql : List Char) :
    ∃ S, sql = rstripSemi sql ++ S ∧ ∀ c ∈ S, c = ';' := by
  refine ⟨(sql.reverse.takeWhile (fun c => c == ';')).reverse, ?_, ?_⟩
  · rw [rstripSemi, ← List.reverse_append, List.takeWhile_append_dropWhile,
      List.reverse_reverse]
  · intro c hc
    rw [List.mem_reverse] at hc
    simpa using List.mem_takeWhile_imp hc

/-- Inversion: what must have held for `run_query_safe` to hand a text to
the store, and which text it is. -/
theorem run_query_safe_execute_inv {sql t : List Char}
    (h : run_query_safe sql = Outcome.execute t) :
    ("select".data <+: cleanedOf sql) ∧
    (∀ kw ∈ FORBIDDEN, ¬ (kw <:+: cleanedOf sql)) ∧
    ((¬ ("limit".data <:+: cleanedOf sql) ∧
        t = rstripSemi sql ++ " LIMIT 200;".data) ∨
      (("limit".data <:+: cleanedOf sql) ∧ t = sql)) := by
  unfold run_query_safe at h
  split at h
  · exact Outcome.noConfusion h
  next h1 =>
    rw [not_not] at h1
    split at h
    · exact Outcome.noConfusion h
    next hnone =>
      rw [List.find?_eq_none] at hnone
      split at h
      · exact Outcome.noConfusion h
      next hblock =>
        refine ⟨h1, ?_, ?_⟩
        · intro kw hkw hinf
          exact hnone kw hkw (by simpa using hinf)
        · split at h
          next hlim =>
            exact Or.inl ⟨hlim, ((Outcome.execute.injEq _ _).mp h).symm⟩
          next hlim =>
            exact Or.inr ⟨not_not.mp hlim, ((Outcome.execute.injEq _ _).mp h).symm⟩

/-! ### Evaluated facts about the concrete keyword lists -/

theorem forbidden_facts :
    ∀ kw ∈ FORBIDDEN, kw ≠ [] ∧ (∀ c ∈ kw, isPySpace c = false) ∧
      ¬ (kw <:+: " limit 200;".data) ∧ ' ' ∉ kw := by decide

theorem limit_facts :
    ("limit".data : List Char) ≠ [] ∧ ∀ c ∈ ("limit".data : List Char),
      isPySpace c = false := by decide

/-- `limit` occurs in the lowered input iff it occurs in `cleaned`:
stripping only removes whitespace at the ends and `limit` contains none. -/
theorem limit_in_lower_iff_in_cleaned (sql : List Char) :
    ("limit".data <:+: pylower sql) ↔ ("limit".data <:+: cleanedOf sql) :=
  ⟨fun hx => pystrip_preserves_occurrence limit_facts.1 limit_facts.2 hx,
   fun hx => hx.trans (pystrip_isInfix _)⟩

/-- C1: on every input that `run_query_safe` accepts, the text handed to
the store starts with `select` (case-insensitively, after stripping the
insignificant surrounding whitespace), contains no `FORBIDDEN` keyword,
contains `limit`, and equals the original text (when `limit` was already
present in its lowering) or the original text with trailing `;` stripped
and ` LIMIT 200;` appended (when it was not). -/
theorem run_query_safe_executed_text (sql t : List Char)
    (h : run_query_safe sql = Outcome.execute t) :
    ("select".data <+: pystrip (pylower t)) ∧
    (∀ kw ∈ FORBIDDEN, ¬ (kw <:+: pylower t)) ∧
    ("limit".data <:+: pylower t) ∧
    (if "limit".data <:+: pylower sql then t = sql
     else t = rstripSemi sql ++ " LIMIT 200;".data) := by
  obtain ⟨hsel, hkw, hbranch⟩ := run_query_safe_execute_inv h
  rcases hbranch with ⟨hnolim, ht⟩ | ⟨hlim, ht⟩ <;> subst ht
  · -- the ` LIMIT 200;` append branch
    obtain ⟨S, hsplit, hSall⟩ := rstripSemi_split sql
    have hS : pylower S = S := by
      rw [pylower]
      exact (List.map_congr_left fun c hc => by rw [hSall c hc]; decide).trans
        (List.map_id S)
    have hmain : pylower sql = pylower (rstripSemi sql) ++ S := by
      conv_lhs => rw [hsplit]
      rw [pylower, List.map_append, ← pylower, ← pylower, hS]
    have hT : pylower (rstripSemi sql ++ " LIMIT 200;".data)
        = pylower (rstripSemi sql) ++ " limit 200;".data := by
      rw [pylower, List.map_append, ← pylower]
      rw [show List.map Char.toLower " LIMIT 200;".data = " limit 200;".data
        from by decide]
    by_cases hD : (pylower (rstripSemi sql)).dropWhile isPySpace = []
    · -- then `cleaned` is all semicolons and cannot start with `select`
      exfalso
      have h1 : cleanedOf sql = rstripWS (S.dropWhile isPySpace) := by
        rw [cleanedOf, hmain, pystrip, List.dropWhile_append, hD]
        simp
      have hSdw : S.dropWhile isPySpace = S := by
        cases S with
        | nil => rfl
        | cons c r =>
          rw [List.dropWhile_cons,
            show isPySpace c = false from by
              rw [hSall c (List.mem_cons_self c r)]; decide]
          simp
      have hSr : rstripWS S = S := by
        by_cases hSne : S = []
        · rw [hSne]; rfl
        · refine rstripWS_eq_of_getLast (c := S.getLast hSne)
            (List.getLast?_eq_getLast _ _) ?_
          rw [hSall _ (List.getLast_mem hSne)]
          decide
      rw [h1, hSdw, hSr] at hsel
      obtain ⟨t', ht'⟩ := hsel
      have hsmem : 's' ∈ S := by
        rw [← ht']
        exact List.mem_append.mpr (Or.inl (by decide))
      have := hSall _ hsmem
      exact absurd this (by decide)
    · -- `cleaned` keeps the nonempty core of the lowered rstripped text
      have hdwa : ∀ B : List Char,
          (pylower (rstripSemi sql) ++ B).dropWhile isPySpace
            = (pylower (rstripSemi sql)).dropWhile isPySpace ++ B := by
        intro B
        rw [List.dropWhile_append, if_neg (by simpa using hD)]
      have hgoalstrip : pystrip (pylower (rstripSemi sql ++ " LIMIT 200;".data))
          = (pylower (rstripSemi sql)).dropWhile isPySpace ++ " limit 200;".data := by
        rw [hT, pystrip, hdwa]
        refine rstripWS_eq_of_getLast (c := ';') ?_ (by decide)
        refine List.getLast?_eq_some_iff.mpr
          ⟨(pylower (rstripSemi sql)).dropWhile isPySpace ++ " limit 200".data, ?_⟩
        rw [show (" limit 200;".data : List Char) = " limit 200".data ++ [';']
          from by decide, List.append_assoc]
      have hselD : "select".data <+: (pylower (rstripSemi sql)).dropWhile isPySpace := by
        rw [cleanedOf, hmain, pystrip, hdwa] at hsel
        by_cases hSne : S = []
        · rw [hSne, List.append_nil] at hsel
          exact hsel.trans (rstripWS_isPrefix _)
        · have hlast : ((pylower (rstripSemi sql)).dropWhile isPySpace ++ S).getLast?
              = some ';' := by
            have hgl : S.getLast hSne = ';' := hSall _ (List.getLast_mem hSne)
            refine List.getLast?_eq_some_iff.mpr
              ⟨(pylower (rstripSemi sql)).dropWhile isPySpace ++ S.dropLast, ?_⟩
            conv_lhs => rw [← List.dropLast_concat_getLast hSne, hgl]
            rw [List.append_assoc]
          rw [rstripWS_eq_of_getLast hlast (by decide)] at hsel
          rcases prefix_append_cases hsel with h1 | ⟨c2, hc2eq, hc2pre⟩
          · exact h1
          · by_cases hc2nil : c2 = []
            · rw [show "select".data
                  = (pylower (rstripSemi sql)).dropWhile isPySpace from by
                rw [hc2eq, hc2nil, List.append_nil]]
            · exfalso
              obtain ⟨ch, hchmem⟩ := List.exists_mem_of_ne_nil c2 hc2nil
              have hchS : ch ∈ S := hc2pre.subset hchmem
              have hchsel : ch ∈ ("select".data : List Char) := by
                rw [hc2eq]
                exact List.mem_append.mpr (Or.inr hchmem)
              rw [hSall ch hchS] at hchsel
              exact absurd hchsel (by decide)
      refine ⟨?_, ?_, ?_, ?_⟩
      · rw [hgoalstrip]
        exact hselD.trans (List.prefix_append _ _)
      · intro kw hm hinf
        rw [hT] at hinf
        obtain ⟨hkne, hkws, hkΛ, hksp⟩ := forbidden_facts kw hm
        rcases infix_append_cases hinf with h1 | h2 | ⟨n₁, n₂, heq, hn₂ne, hn₂pre⟩
        · have hYpre : pylower (rstripSemi sql) <+: pylower sql := by
            rw [hmain]; exact List.prefix_append _ _
          exact hkw kw hm
            (pystrip_preserves_occurrence hkne hkws (h1.trans hYpre.isInfix))
        · exact hkΛ h2
        · obtain ⟨c, n₂', rfl⟩ : ∃ c n₂'', n₂ = c :: n₂'' := by
            cases n₂ with
            | nil => exact absurd rfl hn₂ne
            | cons c n₂'' => exact ⟨c, n₂'', rfl⟩
          have hcsp : c = ' ' := by
            rw [show (" limit 200;".data : List Char) = ' ' :: "limit 200;".data
              from by decide] at hn₂pre
            exact (List.cons_prefix_cons.mp hn₂pre).1
          refine hksp ?_
          rw [heq, ← hcsp]
          exact List.mem_append.mpr (Or.inr (List.mem_cons_self c n₂'))
      · rw [hT]
        exact infix_append_of_right _ (by decide)
      · rw [if_neg fun hx => hnolim ((limit_in_lower_iff_in_cleaned sql).mp hx)]
  · -- the unchanged branch: `limit` already present
    refine ⟨hsel, ?_, ?_, ?_⟩
    · intro kw hm hinf
      obtain ⟨hkne, hkws, _, _⟩ := forbidden_facts kw hm
      exact hkw kw hm (pystrip_preserves_occurrence hkne hkws hinf)
    · exact (limit_in_lower_iff_in_cleaned t).mpr hlim
    · rw [if_pos ((limit_in_lower_iff_in_cleaned t).mpr hlim)]

/-- Witness for C1: the theorem applied at `select * from t`, which the
guard accepts and extends with ` LIMIT 200;`. -/
theorem run_query_safe_executed_text_witness :
    ("select".data <+: pystrip (pylower "select * from t LIMIT 200;".data)) ∧
    (∀ kw ∈ FORBIDDEN, ¬ (kw <:+: pylower "select * from t LIMIT 200;".data)) ∧
    ("limit".data <:+: pylower "select * from t LIMIT 200;".data) ∧
    (if "limit".data <:+: pylower "select * from t".data
     then "select * from t LIMIT 200;".data = "select * from t".data
     else "select * from t LIMIT 200;".data
        = rstripSemi "select * from t".data ++ " LIMIT 200;".data) :=
  run_query_safe_executed_text "select * from t".data
    "select * from t LIMIT 200;".data (by decide)

/-- C2 (amended): a non-SELECT input is rejected with
`Only SELECT queries allowed`; a SELECT input containing a denylisted
keyword is rejected with `Operation <kw> is not allowed` naming a contained
keyword; and `DROP TABLE x` in particular is rejected by the first rule,
with the reason `Only SELECT queries allowed`. -/
theorem run_query_safe_rejections :
    (∀ sql : List Char, ¬ ("select".data <+: cleanedOf sql) →
      run_query_safe sql = Outcome.reject "Only SELECT queries allowed".data) ∧
    (∀ sql kw : List Char, "select".data <+: cleanedOf sql →
      kw ∈ FORBIDDEN → kw <:+: pylower sql →
      ∃ kw', kw' ∈ FORBIDDEN ∧ kw' <:+: pylower sql ∧
        run_query_safe sql
          = Outcome.reject
              ("Operation \x27".data ++ kw' ++ "\x27 is not allowed".data)) ∧
    run_query_safe "DROP TABLE x".data
      = Outcome.reject "Only SELECT queries allowed".data := by
  refine ⟨?_, ?_, by decide⟩
  · intro sql hns
    unfold run_query_safe
    rw [if_pos hns]
  · intro sql kw hs hkwm hkwin
    obtain ⟨hkne, hkws, _, _⟩ := forbidden_facts kw hkwm
    have hkwcl : kw <:+: cleanedOf sql := pystrip_preserves_occurrence hkne hkws hkwin
    rcases hfind : FORBIDDEN.find? (fun bad => decide (bad <:+: cleanedOf sql))
      with _ | bad
    · exfalso
      rw [List.find?_eq_none] at hfind
      exact hfind kw hkwm (by simpa using hkwcl)
    · have hmem : bad ∈ FORBIDDEN := List.mem_of_find?_eq_some hfind
      have hbadcl : bad <:+: cleanedOf sql := by
        have := List.find?_some hfind
        simpa using this
      refine ⟨bad, hmem, hbadcl.trans (pystrip_isInfix _), ?_⟩
      unfold run_query_safe
      rw [if_neg (not_not_intro hs), hfind]

/-- C2 counterexample: `DROP TABLE x` is rejected by the not-a-SELECT rule,
and that rejection reason does not contain `drop` (in either casing), unlike
what the claim states. -/
theorem run_query_safe_drop_reason_counterexample :
    run_query_safe "DROP TABLE x".data
      = Outcome.reject "Only SELECT queries allowed".data ∧
    ¬ ("drop".data <:+: "Only SELECT queries allowed".data) ∧
    ¬ ("drop".data <:+: pylower "Only SELECT queries allowed".data) := by decide

/-- Witness for C2 on a SELECT query containing `drop` inside a name. -/
theorem run_query_safe_rejections_witness :
    ∃ kw', kw' ∈ FORBIDDEN ∧ kw' <:+: pylower "select v from drops".data ∧
      run_query_safe "select v from drops".data
        = Outcome.reject
            ("Operation \x27".data ++ kw' ++ "\x27 is not allowed".data) :=
  run_query_safe_rejections.2.1 "select v from drops".data "drop".data
    (by decide) (by decide) (by decide)

/-- C10: a SELECT input passing the keyword denylist is rejected with
`Query blocked for safety` whenever its cleaned text contains a comma
followed by optional whitespace and at least one word character — which
matches every multi-column projection, not only multi-table FROM lists —
and nothing is executed against the store. -/
theorem run_query_safe_blocks_comma_word (sql : List Char)
    (h1 : "select".data <+: cleanedOf sql)
    (h2 : ∀ kw ∈ FORBIDDEN, ¬ (kw <:+: cleanedOf sql))
    (h3 : hasCommaWord (cleanedOf sql) = true) :
    run_query_safe sql = Outcome.reject "Query blocked for safety".data := by
  have hfind : FORBIDDEN.find? (fun bad => decide (bad <:+: cleanedOf sql)) = none :=
    List.find?_eq_none.mpr fun x hx => by simpa using h2 x hx
  unfold run_query_safe
  rw [if_neg (not_not_intro h1), hfind]
  exact if_pos (Or.inr h3)

/-- Witness for C10 at the multi-column projection `select a, b from t`. -/
theorem run_query_safe_blocks_comma_word_witness :
    run_query_safe "select a, b from t".data
      = Outcome.reject "Query blocked for safety".data :=
  run_query_safe_blocks_comma_word "select a, b from t".data (by decide)
    (by decide) (by decide)

/-! ### Metadata environment: the store and cache as seen by the resolver -/

/-- One `{"schema": s, "table": t}` entry as returned by
`find_table_across_schemas` (src/server.py lines 208-236). -/
structure FoundEntry where
  schema : List Char
  table : List Char
deriving DecidableEq

/-- The environment a resolution runs against: `tables s` is the list
`get_cached_table_names(s)` returns, or the store error it raises;
`elsewhere t` is what `find_table_across_schemas(t)` returns, or the store
error it raises; `ratio` is `difflib.SequenceMatcher(None, a, b).ratio()`
(standard library, modelled as an abstract rational-valued score). -/
structure Env where
  tables : List Char → Except (List Char) (List (List Char))
  elsewhere : List Char → Except (List Char) (List FoundEntry)
  ratio : List Char → List Char → ℚ

/-- `similarity` (src/server.py lines 1145-1147): the ratio of the two
lowercased names. -/
def similarity (env : Env) (a b : List Char) : ℚ :=
  env.ratio (pylower a) (pylower b)

/-- Stable insertion in front of the first strictly-smaller key. -/
def insertByDesc {α : Type} (key : α → ℚ) (x : α) : List α → List α
  | [] => [x]
  | y :: ys => if key y ≤ key x then x :: y :: ys else y :: insertByDesc key x ys

/-- Python `sorted(xs, key=key, reverse=True)`: descending by key, stable
(equal keys keep their original relative order). -/
def sortByDesc {α : Type} (key : α → ℚ) : List α → List α
  | [] => []
  | x :: xs => insertByDesc key x (sortByDesc key xs)

/-- `", ".join(xs)`. -/
def joinComma (xs : List (List Char)) : List Char := List.intercalate ", ".data xs

/-- The result dictionary built by the live `check_table_exists`
(src/server.py lines 583-641): initialised with `exists := false`
(the Python key `exists` is a Lean keyword, hence `exists_`) and empty
lists, then updated along the branch taken. -/
structure CTEResult where
  exists_ : Bool
  schema : List Char
  table : List Char
  actual_schema : Option (List Char)
  suggestions : List (List Char)
  similar_tables : List FoundEntry
  message : Option (List Char)
deriving DecidableEq

/-- The live `check_table_exists` (src/server.py lines 583-641; the second
definition, which shadows the one at lines 246-335).  The fetch of the
schema's table list is wrapped in `try/except` and degrades to a message;
the cross-schema lookup `find_table_across_schemas` is not wrapped, so a
store error it raises propagates (`Except.error`).  The `exists in:`
message joins a Python set of schemas, whose hash-based iteration order is
modelled as first-occurrence order (`dedup`); no claim inspects it. -/
def check_table_exists (env : Env) (schema table : List Char) :
    Except (List Char) CTEResult :=
  match env.tables schema with
  | Except.error e =>
    Except.ok
      { exists_ := false, schema := schema, table := table,
        actual_schema := none, suggestions := [], similar_tables := [],
        message := some ("Error checking table: ".data ++ e) }
  | Except.ok table_names =>
    if table ∈ table_names then
      Except.ok
        { exists_ := true, schema := schema, table := table,
          actual_schema := some schema, suggestions := [],
          similar_tables := [], message := none }
    else
      let similar0 := table_names.filter
        (fun name => decide (pylower table <:+: pylower name))
      let similar_in_schema :=
        if similar0.isEmpty then
          (sortByDesc (fun name => similarity env name table) table_names).take 5
        else similar0
      let sugg := similar_in_schema.map (fun name => schema ++ ".".data ++ name)
      match env.elsewhere table with
      | Except.error e => Except.error e
      | Except.ok found =>
        if ¬ found.isEmpty then
          Except.ok
            { exists_ := false, schema := schema, table := table,
              actual_schema := none,
              suggestions := sugg
                ++ found.map (fun en => en.schema ++ ".".data ++ en.table),
              similar_tables := found,
              message := some ("Table \x27".data ++ table
                ++ "\x27 not found in schema \x27".data ++ schema
                ++ "\x27, but exists in: ".data
                ++ joinComma ((found.map FoundEntry.schema).dedup)) }
        else if ¬ sugg.isEmpty then
          Except.ok
            { exists_ := false, schema := schema, table := table,
              actual_schema := none, suggestions := sugg, similar_tables := [],
              message := some ("Table \x27".data ++ table
                ++ "\x27 not found in schema \x27".data ++ schema
                ++ "\x27. Similar tables: ".data ++ joinComma (sugg.take 5)) }
        else
          Except.ok
            { exists_ := false, schema := schema, table := table,
              actual_schema := none, suggestions := [], similar_tables := [],
              message := some ("Table \x27".data ++ schema ++ ".".data ++ table
                ++ "\x27 does not exist. Use \x27list_tables\x27 to inspect schema \x27".data
                ++ schema
                ++ "\x27 or \x27find_table_schema\x27 to locate the table.".data) }

/-- Claim-side description (C6) of the same-schema candidates: the
case-insensitive substring matches of the queried name among the known
names, or, if there are none, the top 5 known names ranked by similarity
score, descending. -/
def same_schema_candidates (env : Env) (table : List Char)
    (table_names : List (List Char)) : List (List Char) :=
  let sub := table_names.filter (fun name => decide (pylower table <:+: pylower name))
  if sub.isEmpty then
    (sortByDesc (fun name => similarity env name table) table_names).take 5
  else sub

deriving instance DecidableEq for Except

example :
    check_table_exists
      ⟨fun _ => Except.ok ["customers".data, "payments".data],
       fun _ => Except.ok [], fun _ _ => 0⟩
      "sales".data "custmers".data
    = Except.ok
        { exists_ := false, schema := "sales".data,
          table := "custmers".data, actual_schema := none,
          suggestions := ["sales.customers".data, "sales.payments".data],
          similar_tables := [],
          message := some ("Table \x27custmers\x27 not found in schema "
            ++ "\x27sales\x27. Similar tables: "
            ++ "sales.customers, sales.payments").data } := by decide

/-- C5: a table present in the cached table list for its schema resolves to
`exists = true` with `actual_schema` the queried schema and no suggestions;
and in every result of `check_table_exists`, `exists = true` implies the
suggestion list is empty. -/
theorem check_table_exists_exact_and_invariant :
    (∀ (env : Env) (s t : List Char) (ts : List (List Char)),
      env.tables s = Except.ok ts → t ∈ ts →
      check_table_exists env s t = Except.ok
        { exists_ := true, schema := s, table := t, actual_schema := some s,
          suggestions := [], similar_tables := [], message := none }) ∧
    (∀ (env : Env) (s t : List Char) (r : CTEResult),
      check_table_exists env s t = Except.ok r → r.exists_ = true →
      r.suggestions = []) := by
  constructor
  · intro env s t ts hts hmem
    unfold check_table_exists
    rw [hts]
    exact if_pos hmem
  · intro env s t r h hex
    unfold check_table_exists at h
    split at h
    · injection h with h'
      subst h'
      simp at hex
    · split at h
      · injection h with h'
        subst h'
        rfl
      · split at h
        · exact Except.noConfusion h
        · split at h
          · injection h with h'
            subst h'
            simp at hex
          · simp only [] at h
            split at h <;> split at h <;>
              (injection h with h'; subst h'; simp at hex)

def envExact : Env :=
  ⟨fun _ => Except.ok ["customers".data], fun _ => Except.ok [], fun _ _ => 0⟩

/-- Witness for C5: `customers` is in the cached list of `sales`. -/
theorem check_table_exists_exact_witness :
    check_table_exists envExact "sales".data "customers".data = Except.ok
      { exists_ := true, schema := "sales".data, table := "customers".data,
        actual_schema := some "sales".data, suggestions := [],
        similar_tables := [], message := none } :=
  check_table_exists_exact_and_invariant.1 envExact "sales".data
    "customers".data ["customers".data] rfl (by decide)

/-- C6 (amended): on a miss with a successful cross-schema lookup, the
suggestion list is exactly the same-schema candidates rendered as
`schema.table` followed by the elsewhere matches rendered the same way —
in that order, with no deduplication and no truncation to 15 entries
(deduplication and truncation belong to the shadowed first definition of
`check_table_exists`). -/
theorem check_table_exists_suggestions_shape :
    ∀ (env : Env) (s t : List Char) (ts : List (List Char))
      (fe : List FoundEntry),
      env.tables s = Except.ok ts → t ∉ ts → env.elsewhere t = Except.ok fe →
      ∃ r, check_table_exists env s t = Except.ok r ∧ r.exists_ = false ∧
        r.suggestions
          = (same_schema_candidates env t ts).map
              (fun name => s ++ ".".data ++ name)
            ++ fe.map (fun en => en.schema ++ ".".data ++ en.table) := by
  intro env s t ts fe hts hmem hfe
  rcases hck : check_table_exists env s t with e | r
  · exfalso
    unfold check_table_exists at hck
    split at hck
    · exact Except.noConfusion hck
    · split at hck
      · exact Except.noConfusion hck
      · split at hck
        · rename_i e2 helse
          rw [hfe] at helse
          exact Except.noConfusion helse
        · simp only [] at hck
          repeat' split at hck
          all_goals exact Except.noConfusion hck
  · refine ⟨r, rfl, ?_⟩
    unfold check_table_exists at hck
    split at hck
    · rename_i e' htab
      rw [hts] at htab
      exact Except.noConfusion htab
    · rename_i ts' htab
      rw [hts] at htab
      injection htab with htseq
      subst htseq
      split at hck
      · rename_i hmem'
        exact absurd hmem' hmem
      · split at hck
        · rename_i e2 helse
          rw [hfe] at helse
          exact Except.noConfusion helse
        · rename_i found helse
          rw [hfe] at helse
          injection helse with hfeeq
          subst hfeeq
          simp only [] at hck
          repeat' split at hck
          all_goals injection hck with hck'
          all_goals subst hck'
          all_goals refine ⟨rfl, ?_⟩
          all_goals simp_all [same_schema_candidates]
          all_goals rename_i hex2
          all_goals rw [if_neg fun hall => by
            obtain ⟨x, hx, hpx⟩ := hex2
            exact hall x hx hpx]

/-- A schema whose cached list holds 16 tables all containing `tab`. -/
def envSixteen : Env :=
  ⟨fun _ => Except.ok
    ["tab01".data, "tab02".data, "tab03".data, "tab04".data, "tab05".data,
     "tab06".data, "tab07".data, "tab08".data, "tab09".data, "tab10".data,
     "tab11".data, "tab12".data, "tab13".data, "tab14".data, "tab15".data,
     "tab16".data],
   fun _ => Except.ok [], fun _ _ => 0⟩

/-- C6 counterexample: resolving `tab` against `envSixteen` yields a miss
whose suggestion list has 16 entries — the live `check_table_exists` never
truncates to 15 (nor deduplicates), contradicting the claim. -/
theorem check_table_exists_no_truncation_counterexample :
    (check_table_exists envSixteen "s".data "tab".data).toOption.map
      (fun r => (r.exists_, r.suggestions.length)) = some (false, 16) := by
  decide

def envShape : Env :=
  ⟨fun _ => Except.ok ["orders_a".data, "orders_b".data],
   fun _ => Except.ok [⟨"gold".data, "orders".data⟩], fun _ _ => 0⟩

/-- Witness for C6: a miss whose suggestions are the two same-schema
substring matches followed by the one table found elsewhere. -/
theorem check_table_exists_suggestions_shape_witness :
    ∃ r, check_table_exists envShape "s".data "orders".data = Except.ok r ∧
      r.exists_ = false ∧
      r.suggestions
        = (same_schema_candidates envShape "orders".data
            ["orders_a".data, "orders_b".data]).map
            (fun name => "s".data ++ ".".data ++ name)
          ++ [FoundEntry.mk "gold".data "orders".data].map
            (fun en => en.schema ++ ".".data ++ en.table) :=
  check_table_exists_suggestions_shape envShape "s".data "orders".data
    ["orders_a".data, "orders_b".data] [⟨"gold".data, "orders".data⟩]
    rfl (by decide) rfl

/-- C7 (amended): a store error while fetching the schema's table list is
caught and degrades to a structured result carrying
`Error checking table: <msg>` under the `message` key (not `error`), with
`exists = false` and no suggestions; but a store error raised by the
cross-schema lookup `find_table_across_schemas` is not caught and
propagates out of `check_table_exists`. -/
theorem check_table_exists_error_handling :
    (∀ (env : Env) (s t e : List Char), env.tables s = Except.error e →
      check_table_exists env s t = Except.ok
        { exists_ := false, schema := s, table := t, actual_schema := none,
          suggestions := [], similar_tables := [],
          message := some ("Error checking table: ".data ++ e) }) ∧
    (∀ (env : Env) (s t e : List Char) (ts : List (List Char)),
      env.tables s = Except.ok ts → t ∉ ts →
      env.elsewhere t = Except.error e →
      check_table_exists env s t = Except.error e) := by
  constructor
  · intro env s t e he
    unfold check_table_exists
    rw [he]
  · intro env s t e ts hts hmem he
    unfold check_table_exists
    split
    · rename_i e2 htab
      rw [hts] at htab
      exact Except.noConfusion htab
    · rename_i ts2 htab
      rw [hts] at htab
      injection htab with htseq
      subst htseq
      rw [if_neg hmem]
      split
      · rename_i e2 helse
        rw [he] at helse
        injection helse with heq
        rw [heq]
      · rename_i found helse
        rw [he] at helse
        exact Except.noConfusion helse

def envElseErr : Env :=
  ⟨fun _ => Except.ok ["accounts".data],
   fun _ => Except.error "connection refused".data, fun _ _ => 0⟩

/-- C7 counterexample: a store error raised during the cross-schema lookup
propagates out of `check_table_exists` instead of being caught and turned
into `{exists: false, suggestions: [], error: ...}`. -/
theorem check_table_exists_propagates_counterexample :
    check_table_exists envElseErr "s".data "acounts".data
      = Except.error "connection refused".data := by decide

def envTablesErr : Env :=
  ⟨fun _ => Except.error "boom".data, fun _ => Except.ok [], fun _ _ => 0⟩

/-- Witness for C7: the caught table-list error at a concrete environment. -/
theorem check_table_exists_error_handling_witness :
    check_table_exists envTablesErr "s".data "t".data = Except.ok
      { exists_ := false, schema := "s".data, table := "t".data,
        actual_schema := none, suggestions := [], similar_tables := [],
        message := some ("Error checking table: ".data ++ "boom".data) } :=
  check_table_exists_error_handling.1 envTablesErr "s".data "t".data
    "boom".data rfl

/-! ### Structured query builder: `portfolio_query` -/

/-- `allowed_group_by` (src/server.py line 1694). -/
def allowed_group_by : List (List Char) :=
  ["file_month".data, "region".data, "bucket".data, "vintage_band".data]

/-- `allowed_metrics` (src/server.py line 1703). -/
def allowed_metrics : List (List Char) :=
  ["pos".data, "one_plus_balance".data, "recovery_rate".data,
   "flow_rate_b1_b2".data, "rate_loss_value".data, "rate_loss_bps".data]

/-- `allowed_filters = allowed_group_by + ["product_name"]`
(src/server.py line 1756). -/
def allowed_filters : List (List Char) :=
  allowed_group_by ++ ["product_name".data]

/-- `aggregation_map.get(metric, "SUM")` (src/server.py lines 1720-1727). -/
def aggregation_map (m : List Char) : List Char :=
  if m = "pos".data then "SUM".data
  else if m = "one_plus_balance".data then "SUM".data
  else if m = "recovery_rate".data then "AVG".data
  else if m = "flow_rate_b1_b2".data then "AVG".data
  else if m = "rate_loss_value".data then "SUM".data
  else if m = "rate_loss_bps".data then "AVG".data
  else "SUM".data

/-- Seven characters `dddd-dd`. -/
def coreYYYYMM : List Char → Bool
  | [a, b, c, d, e, f, g] =>
    a.isDigit && b.isDigit && c.isDigit && d.isDigit && e == '-'
      && f.isDigit && g.isDigit
  | _ => false

/-- `re.match(r"^\d{4}-\d{2}$", s) is not None`: the core pattern, or the
core pattern followed by one trailing newline (Python `$` also matches just
before a final newline). -/
def matchYYYYMM (s : List Char) : Bool :=
  coreYYYYMM s || (s.getLast? == some '\n' && coreYYYYMM s.dropLast)

/-- The caller-supplied arguments of `portfolio_query`
(src/server.py lines 1657-1663); `filters` is an insertion-ordered dict,
whose values may be absent (`None`). -/
structure PQInput where
  from_month : List Char
  to_month : List Char
  group_by : List (List Char)
  metrics : List (List Char)
  product_name : Option (List Char)
  filters : List (List Char × Option (List Char))

/-- Which validation error dictionary `portfolio_query` returns, carrying
the data interpolated into its message. -/
inductive PQError where
  | emptyGroupBy
  | emptyMetrics
  | invalidGroupBy (bad : List (List Char))
  | invalidMetrics (bad : List (List Char))
  | badFromMonth (m : List Char)
  | badToMonth (m : List Char)
deriving DecidableEq

/-- Validation error, or the SQL text and bound parameters handed to the
store (the echoed `query_params` dictionary of the success response is
presentation and is not modelled). -/
inductive PQResult where
  | error (e : PQError)
  | query (sql : List Char) (params : List (List Char))
deriving DecidableEq

/-- Python truthiness of the optional `product_name`: `None` and `""` are
falsy. -/
def pnTruthy : Option (List Char) → Bool
  | none => false
  | some s => !s.isEmpty

/-- The filter loop of `portfolio_query` (src/server.py lines 1754-1768):
the `<key> = %s` conditions and the bound values, in dict order; the
`product_name` key is skipped when the `product_name` argument is truthy;
keys outside `allowed_filters` and absent/empty values are skipped. -/
def filterConds (pn : Bool) :
    List (List Char × Option (List Char)) → List (List Char) × List (List Char)
  | [] => ([], [])
  | (k, v) :: rest =>
    if k = "product_name".data ∧ pn then filterConds pn rest
    else if k ∈ allowed_filters then
      match v with
      | some x =>
        if x ≠ [] then
          ((k ++ " = %s".data) :: (filterConds pn rest).1,
            x :: (filterConds pn rest).2)
        else filterConds pn rest
      | none => filterConds pn rest
    else filterConds pn rest

/-- `portfolio_query` (src/server.py lines 1656-1826) up to execution:
fail-fast validation in source order, then the SQL text (the f-string's
newlines and indentation normalised to single spaces) with its bound
parameters.  `group_by` is non-empty on the success path, so the `"1"`
fallback of the `GROUP BY` clause is unreachable. -/
def portfolio_query (inp : PQInput) : PQResult :=
  if inp.group_by.isEmpty then PQResult.error PQError.emptyGroupBy
  else if inp.metrics.isEmpty then PQResult.error PQError.emptyMetrics
  else
    let invalid_group_by :=
      inp.group_by.filter (fun g => decide (g ∉ allowed_group_by))
    if ¬ invalid_group_by.isEmpty then
      PQResult.error (PQError.invalidGroupBy invalid_group_by)
    else
      let invalid_metrics :=
        inp.metrics.filter (fun m => decide (m ∉ allowed_metrics))
      if ¬ invalid_metrics.isEmpty then
        PQResult.error (PQError.invalidMetrics invalid_metrics)
      else if ¬ matchYYYYMM inp.from_month then
        PQResult.error (PQError.badFromMonth inp.from_month)
      else if ¬ matchYYYYMM inp.to_month then
        PQResult.error (PQError.badToMonth inp.to_month)
      else
        let select_parts := inp.group_by
          ++ inp.metrics.map (fun m =>
              aggregation_map m ++ "(".data ++ m ++ ") AS ".data ++ m)
        let pn := pnTruthy inp.product_name
        let base_conds := ["file_month >= %s".data, "file_month <= %s".data]
          ++ (if pn then ["product_name = %s".data] else [])
        let base_params := [inp.from_month, inp.to_month]
          ++ (if pn then [inp.product_name.getD []] else [])
        let fc := filterConds pn inp.filters
        PQResult.query
          ("SELECT ".data ++ joinComma select_parts
            ++ " FROM collections_portfolio.monthly_snapshot WHERE ".data
            ++ List.intercalate " AND ".data (base_conds ++ fc.1)
            ++ " GROUP BY ".data ++ joinComma inp.group_by
            ++ " ORDER BY ".data ++ joinComma inp.group_by)
          (base_params ++ fc.2)

example :
    portfolio_query
      ⟨"2025-01".data, "2025-03".data, ["region".data], ["pos".data],
        none, []⟩
    = PQResult.query
        ("SELECT region, SUM(pos) AS pos"
          ++ " FROM collections_portfolio.monthly_snapshot WHERE "
          ++ "file_month >= %s AND file_month <= %s"
          ++ " GROUP BY region ORDER BY region").data
        ["2025-01".data, "2025-03".data] := by decide

/-- Dropping the disallowed filter keys changes nothing in the built
conditions and parameters. -/
theorem filterConds_restrict (pn : Bool)
    (l : List (List Char × Option (List Char))) :
    filterConds pn (l.filter fun kv => decide (kv.1 ∈ allowed_filters))
      = filterConds pn l := by
  induction l with
  | nil => rfl
  | cons kv rest ih =>
    rcases kv with ⟨k, v⟩
    by_cases hk : k ∈ allowed_filters
    · rw [List.filter_cons, if_pos (by simpa using hk)]
      simp only [filterConds]
      rw [ih]
    · rw [List.filter_cons, if_neg (by simpa using hk)]
      rw [ih]
      have hknp : ¬ (k = "product_name".data ∧ pn = true) := by
        rintro ⟨rfl, _⟩
        exact hk (by decide)
      simp only [filterConds]
      rw [if_neg hknp, if_neg hk]

/-- Any failed validation makes `portfolio_query` return an error
dictionary (shared by the statements about C3 and C4). -/
theorem portfolio_query_error_of_bad_input (inp : PQInput)
    (h : inp.group_by = [] ∨ inp.metrics = [] ∨
      (∃ g ∈ inp.group_by, g ∉ allowed_group_by) ∨
      (∃ m ∈ inp.metrics, m ∉ allowed_metrics) ∨
      matchYYYYMM inp.from_month = false ∨
      matchYYYYMM inp.to_month = false) :
    ∃ e, portfolio_query inp = PQResult.error e := by
  by_cases h1 : inp.group_by.isEmpty
  · exact ⟨_, by simp only [portfolio_query]; rw [if_pos h1]⟩
  by_cases h2 : inp.metrics.isEmpty
  · exact ⟨_, by simp only [portfolio_query]; rw [if_neg h1, if_pos h2]⟩
  by_cases h3 :
      (inp.group_by.filter fun g => decide (g ∉ allowed_group_by)).isEmpty
  case neg =>
    exact ⟨_, by
      simp only [portfolio_query]
      rw [if_neg h1, if_neg h2, if_pos h3]⟩
  by_cases h4 :
      (inp.metrics.filter fun m => decide (m ∉ allowed_metrics)).isEmpty
  case neg =>
    exact ⟨_, by
      simp only [portfolio_query]
      rw [if_neg h1, if_neg h2, if_neg (not_not_intro h3), if_pos h4]⟩
  by_cases h5 : matchYYYYMM inp.from_month
  case neg =>
    exact ⟨_, by
      simp only [portfolio_query]
      rw [if_neg h1, if_neg h2, if_neg (not_not_intro h3),
        if_neg (not_not_intro h4), if_pos h5]⟩
  by_cases h6 : matchYYYYMM inp.to_month
  case neg =>
    exact ⟨_, by
      simp only [portfolio_query]
      rw [if_neg h1, if_neg h2, if_neg (not_not_intro h3),
        if_neg (not_not_intro h4), if_neg (not_not_intro h5), if_pos h6]⟩
  exfalso
  rcases h with h | h | ⟨g, hg, hgn⟩ | ⟨m, hm, hmn⟩ | h | h
  · exact h1 (by simp [h])
  · exact h2 (by simp [h])
  · have hmemf : g ∈ inp.group_by.filter fun g => decide (g ∉ allowed_group_by) :=
      List.mem_filter.mpr ⟨hg, by simpa using hgn⟩
    rw [List.isEmpty_iff.mp h3] at hmemf
    exact List.not_mem_nil g hmemf
  · have hmemf : m ∈ inp.metrics.filter fun m => decide (m ∉ allowed_metrics) :=
      List.mem_filter.mpr ⟨hm, by simpa using hmn⟩
    rw [List.isEmpty_iff.mp h4] at hmemf
    exact List.not_mem_nil m hmemf
  · rw [h] at h5
    exact Bool.noConfusion h5
  · rw [h] at h6
    exact Bool.noConfusion h6

/-- C4: `portfolio_query` validates fail-fast before any SQL text exists —
an empty `group_by`, an empty `metrics`, a `group_by` element or metric
outside the fixed allow-lists, or a month that fails the `YYYY-MM` pattern
each yield a validation error (so `group_by = ["region; drop table x"]`
fails with the invalid-group-by error before any SQL is constructed) —
while filter keys outside `allowed_filters` are silently dropped: the
result is unchanged when they are removed. -/
theorem portfolio_query_validations :
    (∀ inp : PQInput,
      inp.group_by = [] ∨ inp.metrics = [] ∨
      (∃ g ∈ inp.group_by, g ∉ allowed_group_by) ∨
      (∃ m ∈ inp.metrics, m ∉ allowed_metrics) ∨
      matchYYYYMM inp.from_month = false ∨ matchYYYYMM inp.to_month = false →
      ∃ e, portfolio_query inp = PQResult.error e) ∧
    portfolio_query
      ⟨"2025-01".data, "2025-03".data, ["region; drop table x".data],
        ["pos".data], none, []⟩
      = PQResult.error (PQError.invalidGroupBy ["region; drop table x".data]) ∧
    (∀ inp : PQInput,
      portfolio_query inp
        = portfolio_query { inp with
            filters := inp.filters.filter
              (fun kv => decide (kv.1 ∈ allowed_filters)) }) := by
  refine ⟨portfolio_query_error_of_bad_input, by decide, ?_⟩
  intro inp
  simp only [portfolio_query, filterConds_restrict]

/-- Witness for C4 at an empty `group_by`. -/
theorem portfolio_query_validations_witness :
    ∃ e, portfolio_query
        ⟨"2025-01".data, "2025-03".data, [], ["pos".data], none, []⟩
      = PQResult.error e :=
  portfolio_query_validations.1
    ⟨"2025-01".data, "2025-03".data, [], ["pos".data], none, []⟩
    (Or.inl rfl)

/-! ### `describe_table` sample statistics: catalog-gated interpolation -/

/-- The per-column statistics f-string of `describe_table`
(src/server.py lines 506-509). -/
def stat_sql (schema table col : List Char) : List Char :=
  "SELECT MIN(".data ++ col ++ "), MAX(".data ++ col
    ++ "), COUNT(DISTINCT ".data ++ col ++ ") FROM ".data
    ++ schema ++ ".".data ++ table ++ ";".data

/-- The sample-statistics SQL texts `describe_table`
(src/server.py lines 403-520) executes: none unless the
`check_table_exists` gate reported an existing table, otherwise one
statement per column of `columns[:5]` (`cols` is the already-fetched
`information_schema` column list — store-supplied, not caller-supplied). -/
def describe_table_sample_sqls (env : Env) (cols : List (List Char))
    (schema table : List Char) : List (List Char) :=
  match check_table_exists env schema table with
  | Except.error _ => []
  | Except.ok r =>
    if r.exists_ then (cols.take 5).map (stat_sql schema table) else []

/-- C3 counterexample: no closed, statically declared list can cover the
identifiers `describe_table` interpolates — for any candidate static list,
a catalog containing a longer table name leads to that name being
concatenated into executed SQL. -/
theorem no_static_allowlist_counterexample :
    ¬ ∃ L : List (List Char), ∀ (env : Env) (cols : List (List Char))
      (s t : List Char), ∀ sql ∈ describe_table_sample_sqls env cols s t,
        s ∈ L ∧ t ∈ L := by
  rintro ⟨L, hL⟩
  set t0 : List Char := List.replicate ((L.map List.length).sum + 1) 'a'
    with ht0
  have hnot : t0 ∉ L := by
    intro hmem
    have h1 : t0.length ∈ L.map List.length := List.mem_map_of_mem _ hmem
    have h2 := List.single_le_sum (l := L.map List.length)
      (fun x _ => Nat.zero_le x) _ h1
    rw [ht0] at h2
    simp only [List.length_replicate] at h2
    omega
  have hck : check_table_exists
      ⟨fun _ => Except.ok [t0], fun _ => Except.ok [], fun _ _ => 0⟩
      "s".data t0
      = Except.ok
        { exists_ := true, schema := "s".data, table := t0,
          actual_schema := some "s".data, suggestions := [],
          similar_tables := [], message := none } := by
    unfold check_table_exists
    exact if_pos (List.mem_cons_self t0 [])
  have hsqls : describe_table_sample_sqls
      ⟨fun _ => Except.ok [t0], fun _ => Except.ok [], fun _ _ => 0⟩
      ["c".data] "s".data t0 = [stat_sql "s".data t0 "c".data] := by
    unfold describe_table_sample_sqls
    rw [hck]
    rfl
  have hin := hL ⟨fun _ => Except.ok [t0], fun _ => Except.ok [], fun _ _ => 0⟩
    ["c".data] "s".data t0 (stat_sql "s".data t0 "c".data)
    (by rw [hsqls]; exact List.mem_cons_self _ _)
  exact hnot hin.2

/-- C3 (amended): every caller-supplied identifier is validated before it
is concatenated into SQL, but not always against a statically declared
list — `describe_table` interpolates the caller's schema and table only
after the catalog gate confirmed the table is in the schema's (dynamic)
table list, while `portfolio_query` interpolates only group-by and metric
identifiers drawn from its closed static allow-lists. -/
theorem identifiers_validated_before_interpolation :
    (∀ (env : Env) (cols : List (List Char)) (s t : List Char),
      describe_table_sample_sqls env cols s t ≠ [] →
      ∃ ts, env.tables s = Except.ok ts ∧ t ∈ ts) ∧
    (∀ (inp : PQInput) (sql : List Char) (params : List (List Char)),
      portfolio_query inp = PQResult.query sql params →
      (∀ g ∈ inp.group_by, g ∈ allowed_group_by) ∧
      (∀ m ∈ inp.metrics, m ∈ allowed_metrics)) := by
  constructor
  · intro env cols s t hne
    unfold describe_table_sample_sqls at hne
    split at hne
    · exact absurd rfl hne
    · rename_i r heq
      split at hne
      · rename_i hex
        unfold check_table_exists at heq
        split at heq
        · injection heq with h'
          rw [← h'] at hex
          simp at hex
        · rename_i ts htab
          split at heq
          · rename_i hmem
            exact ⟨ts, htab, hmem⟩
          · exfalso
            split at heq
            · exact Except.noConfusion heq
            · simp only [] at heq
              repeat' split at heq
              all_goals injection heq with h'
              all_goals rw [← h'] at hex
              all_goals simp at hex
      · exact absurd rfl hne
  · intro inp sql params h
    constructor
    · intro g hg2
      by_contra hgn
      obtain ⟨e, he⟩ := portfolio_query_error_of_bad_input inp
        (Or.inr (Or.inr (Or.inl ⟨g, hg2, hgn⟩)))
      rw [he] at h
      exact PQResult.noConfusion h
    · intro m hm2
      by_contra hmn
      obtain ⟨e, he⟩ := portfolio_query_error_of_bad_input inp
        (Or.inr (Or.inr (Or.inr (Or.inl ⟨m, hm2, hmn⟩))))
      rw [he] at h
      exact PQResult.noConfusion h

/-- Witness for C3 at a one-table catalog. -/
theorem identifiers_validated_before_interpolation_witness :
    ∃ ts, (⟨fun _ => Except.ok ["accounts".data], fun _ => Except.ok [],
        fun _ _ => 0⟩ : Env).tables "s".data = Except.ok ts
      ∧ "accounts".data ∈ ts :=
  identifiers_validated_before_interpolation.1
    ⟨fun _ => Except.ok ["accounts".data], fun _ => Except.ok [], fun _ _ => 0⟩
    ["c".data] "s".data "accounts".data (by decide)

/-! ### `list_tables`: connection accounting -/

/-- One row of the `list_tables` result. -/
structure TableInfo where
  table_name : List Char
  row_estimate : Int
  description : List Char
deriving DecidableEq

/-- What the two catalog queries of `list_tables` return (or raise). -/
structure ListTablesEnv where
  desc_rows : Except (List Char) (List (List Char × List Char))
  estimate_rows : Except (List Char) (List (List Char × Int))

/-- `list_tables` (src/server.py lines 352-395) with explicit connection
accounting: the second component records whether the pooled connection was
released (`conn.close()` reached).  The metadata-description query is
wrapped in `try/except` (a failure leaves `desc_map` empty and the function
continues); the `pg_class` row-estimate query at line 374 is not — a store
error there propagates before `conn.close()` at line 393 is reached. -/
def list_tables (env : ListTablesEnv) :
    Except (List Char) (List TableInfo) × Bool :=
  let desc_map := match env.desc_rows with
    | Except.error _ => []
    | Except.ok m => m
  match env.estimate_rows with
  | Except.error e => (Except.error e, false)
  | Except.ok rows =>
    (Except.ok (rows.map fun nr =>
      ⟨nr.1, nr.2, (desc_map.lookup nr.1).getD []⟩), true)

/-- C8 (code bug): when the `pg_class` row-estimate query raises a store
error, `list_tables` propagates it without reaching `conn.close()` — the
pooled connection is not released, against the stated release-on-every-
exit-path rule.  (`get_cached_schemas` has the same unprotected catalog
query at lines 131-141.) -/
theorem list_tables_leaks_connection_on_estimate_error :
    list_tables ⟨Except.ok [], Except.error "connection lost".data⟩
      = (Except.error "connection lost".data, false) := rfl

/-! ### Schema cache TTL: `get_cached_schemas` -/

/-- `METADATA_CACHE["schemas"]`: the cached list and its `time.time()`
stamp (time modelled as `ℚ`). -/
structure SchemaCacheEntry where
  data : List (List Char)
  timestamp : ℚ
deriving DecidableEq

/-- `_is_cache_valid` (src/server.py lines 106-109) at time `now`: an
entry with empty (falsy) data is invalid; otherwise it is valid while
younger than the TTL. -/
def _is_cache_valid (entry : SchemaCacheEntry) (now TTL : ℚ) : Bool :=
  !entry.data.isEmpty && decide (now - entry.timestamp < TTL)

/-- `get_cached_schemas` (src/server.py lines 120-149): the returned list,
the cache entry afterwards, and the number of store queries issued.
`tCheck` and `tStore` are the two `time.time()` calls (validity check and
storing stamp); `store` is what the schema catalog query returns. -/
def get_cached_schemas (TTL : ℚ) (force_refresh : Bool)
    (cache : SchemaCacheEntry) (tCheck tStore : ℚ)
    (store : List (List Char)) :
    List (List Char) × SchemaCacheEntry × Nat :=
  if !force_refresh && _is_cache_valid cache tCheck TTL then
    (cache.data, cache, 0)
  else
    (store, ⟨store, tStore⟩, 1)

/-- C9 counterexample: a call that completes successfully but stores an
empty schema list does not spare the next call (1 second later, TTL 300) a
store query — empty cached data is treated as invalid, so the second call
issues one query, not zero. -/
theorem get_cached_schemas_empty_list_counterexample :
    get_cached_schemas 300 false ⟨[], 0⟩ 0 0 [] = ([], ⟨[], 0⟩, 1) ∧
    get_cached_schemas 300 false ⟨[], 0⟩ 1 1 ["gold".data]
      = (["gold".data], ⟨["gold".data], 1⟩, 1) := by decide

/-- C9 (amended): when a call without `force_refresh` returns a non-empty
list, any later call without `force_refresh` within `CACHE_TTL_SECONDS` of
the resulting entry's timestamp issues zero store queries and returns the
same list with the cache unchanged; a call without `force_refresh` made
once the TTL has elapsed since the entry's timestamp issues exactly one
store query and stores the fetched list with the fresh time stamp. -/
theorem get_cached_schemas_ttl :
    (∀ (TTL : ℚ) (s₀ : SchemaCacheEntry) (t₁ t₁' : ℚ)
      (store₁ : List (List Char)) (t₂ t₂' : ℚ) (store₂ : List (List Char))
      (r₁ : List (List Char)) (s₁ : SchemaCacheEntry) (n₁ : ℕ),
      get_cached_schemas TTL false s₀ t₁ t₁' store₁ = (r₁, s₁, n₁) →
      r₁ ≠ [] → t₂ - s₁.timestamp < TTL →
      get_cached_schemas TTL false s₁ t₂ t₂' store₂ = (r₁, s₁, 0)) ∧
    (∀ (TTL : ℚ) (s : SchemaCacheEntry) (t t' : ℚ)
      (store : List (List Char)),
      TTL ≤ t - s.timestamp →
      get_cached_schemas TTL false s t t' store
        = (store, ⟨store, t'⟩, 1)) := by
  constructor
  · intro TTL s₀ t₁ t₁' store₁ t₂ t₂' store₂ r₁ s₁ n₁ h1 hne hlt
    have hdata : r₁ = s₁.data := by
      unfold get_cached_schemas at h1
      split at h1
      · injection h1 with ha hbc
        injection hbc with hb hc
        rw [← ha, ← hb]
      · injection h1 with ha hbc
        injection hbc with hb hc
        rw [← ha, ← hb]
    have hval : _is_cache_valid s₁ t₂ TTL = true := by
      unfold _is_cache_valid
      rw [Bool.and_eq_true]
      constructor
      · rw [Bool.not_eq_true']
        rw [← Bool.not_eq_true]
        intro hE
        exact hne (by rw [hdata]; exact List.isEmpty_iff.mp hE)
      · exact decide_eq_true hlt
    unfold get_cached_schemas
    rw [if_pos (by simp [hval])]
    rw [hdata]
  · intro TTL s t t' store hle
    have hval : _is_cache_valid s t TTL = false := by
      unfold _is_cache_valid
      have hd : decide (t - s.timestamp < TTL) = false :=
        decide_eq_false (not_lt.mpr hle)
      simp [hd]
    unfold get_cached_schemas
    rw [if_neg (by simp [hval])]

/-- Witness for C9: a cache hit within the TTL does zero store queries. -/
theorem get_cached_schemas_ttl_witness :
    get_cached_schemas 300 false ⟨["gold".data], 0⟩ 10 10 ["x".data]
      = (["gold".data], ⟨["gold".data], 0⟩, 0) :=
  get_cached_schemas_ttl.1 300 ⟨["gold".data], 0⟩ 5 5 [] 10 10 ["x".data]
    ["gold".data] ⟨["gold".data], 0⟩ 0
    (by unfold get_cached_schemas _is_cache_valid
        norm_num)
    (by decide)
    (by norm_num)
